import Mathlib

/-!
Verification of the correlated request bridge of this repository.

The development shallowly embeds the two implementations of the bridge found
in the source:

* the shared state-request helpers (generateRequestId, initRequest,
  waitForRequestResult) bundled with src/auth/events/registration-failed.step.ts,
  used by the organization / admin / invitation endpoints; and
* the local reimplementation inside the RAG query endpoint (unnamed part_001),
  which differs in poll interval, in its timeout behaviour (it throws), and in
  returning any stored record rather than only terminal ones.

Time is modelled in milliseconds.  A poll loop is embedded as a structurally
recursive function over a fuel argument; the fuel passed by the wrapper equals
the timeout budget in milliseconds, which is an upper bound on the number of
loop iterations because every iteration advances elapsed time by the poll
interval (at least 1 ms).  The fuel-exhausted branch returns the same value as
the deadline-elapsed branch, and the lemma waitAux_fuel_stable below shows the
result is independent of the fuel once the fuel is sufficient, so the fuel is
a faithful rendering of the unbounded while loop.

The store is modelled as a time-indexed map from (group, requestId) to an
optional stored record, so that writes performed by workers while the caller
is polling are expressible.  Reads and writes are recorded as explicit
operations so that frame properties (the waiter never writes) are provable.
-/

/-- JSON-like scalar values, enough to model the payload objects the bridge
stores. -/
inductive JsonVal where
  | str (s : String)
  | num (n : Int)
  | jbool (b : Bool)
  | jnull
deriving DecidableEq

/-- A JavaScript object literal, modelled as an association list; later
bindings shadow earlier ones, matching object spread semantics. -/
abbrev JsonObj := List (String × JsonVal)

/-- Field lookup on an object: the last binding for a key wins, matching the
semantics of JavaScript object literals built with spreads. -/
def objGet (o : JsonObj) (k : String) : Option JsonVal :=
  (o.reverse.find? (fun p => p.1 == k)).map (fun p => p.2)

/-- The RequestResult union of the state-request module: a record stored under
a correlation key is pending, completed with a payload, or failed with an
error message and an optional suggested status code. -/
inductive CorrelationRecord (α : Type) where
  | pending
  | completed (data : α)
  | failed (error : String) (statusCode : Option Int)
deriving DecidableEq

/-- Test from the source: result.status !== 'pending' is the negation of
this predicate. -/
def CorrelationRecord.isPending {α : Type} : CorrelationRecord α → Bool
  | .pending => true
  | _ => false

/-- The record synthesized by waitForRequestResult when the budget elapses. -/
def timeoutFailureRecord {α : Type} : CorrelationRecord α :=
  .failed "Request processing timed out" (some 504)

/-- A snapshot of the state manager: what get(group, requestId) would return. -/
abbrev Store (α : Type) := String → String → Option (CorrelationRecord α)

/-- A time-indexed store: the snapshot visible at each elapsed millisecond,
capturing concurrent writes by workers. -/
abbrev TStore (α : Type) := Nat → Store α

/-- One operation the bridge performs against the state manager. -/
inductive StoreOp (α : Type) where
  | read (group id : String)
  | write (group id : String) (v : CorrelationRecord α)
deriving DecidableEq

/-- Whether an operation is a read of the given key. -/
def StoreOp.isReadAt {α : Type} : StoreOp α → String → String → Bool
  | .read g i, g', i' => g == g' && i == i'
  | .write _ _ _, _, _ => false

/-- Point update of a store snapshot at one (group, id) key. -/
def updateStore {α : Type} (s : Store α) (g i : String)
    (v : Option (CorrelationRecord α)) : Store α :=
  fun g' i' => if g' = g ∧ i' = i then v else s g' i'

/-- Replay a list of store operations against a snapshot: reads change
nothing, writes update the key they name. -/
def applyOps {α : Type} : List (StoreOp α) → Store α → Store α
  | [], s => s
  | .read _ _ :: rest, s => applyOps rest s
  | .write g i v :: rest, s => applyOps rest (updateStore s g i (some v))

/-- Everything observable about one call of the polling waiter: the record it
returns, the store operations it performed, and the elapsed time in
milliseconds at which it returned. -/
structure WaitOutcome (α : Type) where
  result : CorrelationRecord α
  ops : List (StoreOp α)
  returnedAt : Nat
deriving DecidableEq

/-- Prepend a read of (g, i) to the operation trace of an outcome. -/
def addRead {α : Type} (w : WaitOutcome α) (g i : String) : WaitOutcome α :=
  ⟨w.result, .read g i :: w.ops, w.returnedAt⟩

/-- Poll interval of the state-request module (POLL_INTERVAL_MS). -/
def POLL_INTERVAL_MS : Nat := 100

/-- Default timeout of the state-request module (STATE_TIMEOUT_MS). -/
def STATE_TIMEOUT_MS : Int := 10000

/-- Loop body of waitForRequestResult from the state-request module.  Each
iteration checks the deadline, reads the store, returns the record when one is
present and not pending, and otherwise sleeps one poll interval and retries.
On deadline (and on fuel exhaustion, which coincides with it for the fuel
chosen by the wrapper) it returns the synthesized timeout failure. -/
def waitAux {α : Type} (store : TStore α) (groupId requestId : String)
    (timeoutMs : Int) : Nat → Nat → WaitOutcome α
  | 0, elapsed => ⟨timeoutFailureRecord, [], elapsed⟩
  | fuel + 1, elapsed =>
    if (elapsed : Int) < timeoutMs then
      match store elapsed groupId requestId with
      | some r =>
        if r.isPending then
          addRead (waitAux store groupId requestId timeoutMs fuel
            (elapsed + POLL_INTERVAL_MS)) groupId requestId
        else
          ⟨r, [.read groupId requestId], elapsed⟩
      | none =>
        addRead (waitAux store groupId requestId timeoutMs fuel
          (elapsed + POLL_INTERVAL_MS)) groupId requestId
    else
      ⟨timeoutFailureRecord, [], elapsed⟩

/-- Embedding of waitForRequestResult from the state-request module bundled
with src/auth/events/registration-failed.step.ts (lines 90 to 115). -/
def waitForRequestResult {α : Type} (store : TStore α)
    (groupId requestId : String) (timeoutMs : Int) : WaitOutcome α :=
  waitAux store groupId requestId timeoutMs timeoutMs.toNat 0

/-- Poll interval of the local waiter of the RAG query endpoint. -/
def RAG_POLL_INTERVAL_MS : Nat := 500

/-- Timeout default of the local waiter of the RAG query endpoint. -/
def RAG_STATE_TIMEOUT_MS : Int := 60000

/-- Loop body of the local waitForRequestResult of the RAG query endpoint
(unnamed part_001, lines 13 to 31): it returns any record found, pending or
not, and throws (modelled as Except.error) when the budget elapses. -/
def ragWaitAux {α : Type} (store : TStore α) (groupId requestId : String)
    (timeoutMs : Int) : Nat → Nat → Except String (CorrelationRecord α)
  | 0, _ => .error "Request timeout"
  | fuel + 1, elapsed =>
    if (elapsed : Int) < timeoutMs then
      match store elapsed groupId requestId with
      | some r => .ok r
      | none =>
        ragWaitAux store groupId requestId timeoutMs fuel
          (elapsed + RAG_POLL_INTERVAL_MS)
    else
      .error "Request timeout"

/-- Embedding of the local waitForRequestResult of the RAG query endpoint. -/
def ragWaitForRequestResult {α : Type} (store : TStore α)
    (groupId requestId : String) (timeoutMs : Int) :
    Except String (CorrelationRecord α) :=
  ragWaitAux store groupId requestId timeoutMs timeoutMs.toNat 0

/-- The object written by initRequest of the state-request module: the literal
with status 'pending' extended by spreading the caller-supplied requestData,
whose fields are assigned after status and therefore shadow it. -/
def initRequestRecord (requestData : JsonObj) : JsonObj :=
  ("status", JsonVal.str "pending") :: requestData

/-- Embedding of initRequest of the state-request module (registration-failed
step file, lines 120 to 130): one unconditional set of the spread object. -/
def initRequest (state : String → String → Option JsonObj)
    (groupId requestId : String) (requestData : JsonObj) :
    String → String → Option JsonObj :=
  fun g i =>
    if g = groupId ∧ i = requestId then some (initRequestRecord requestData)
    else state g i

/-- The object written by the local initRequest of the RAG query endpoint
(unnamed part_001, lines 33 to 41): exactly the bare pending marker. -/
def ragInitRequestRecord : JsonObj := [("status", JsonVal.str "pending")]

/-- Whether the pattern occurs at the head of the character list; building
block for the substring test below. -/
def charsStartWith : List Char → List Char → Bool
  | _, [] => true
  | [], _ :: _ => false
  | a :: as, b :: bs => a == b && charsStartWith as bs

/-- Whether the pattern occurs anywhere in the character list. -/
def charsContain : List Char → List Char → Bool
  | [], pat => pat.isEmpty
  | a :: as, pat => charsStartWith (a :: as) pat || charsContain as pat

/-- Model of the JavaScript String.includes test used by the handlers. -/
def strContains (s pat : String) : Bool :=
  charsContain s.toList pat.toList

/-- Model of the JavaScript String.toLowerCase call used by the handlers. -/
def strToLower (s : String) : String :=
  String.mk (s.toList.map Char.toLower)

/-- Model of the expression (err.message || 'Unknown error'): an absent or
empty message string is replaced by the fallback, since the empty string is
falsy in JavaScript. -/
def jsErrMessage : Option String → String
  | some s => if s = "" then "Unknown error" else s
  | none => "Unknown error"

/-- Status code computation of the ProcessDeleteOrganization handler (lines
80 to 85 of delete-processing.step.ts): 404 when the lowercased error message
mentions a missing organization, 400 otherwise. -/
def deleteErrorStatusCode (errorMessage : String) : Int :=
  let lower := strToLower errorMessage
  if strContains lower "not found" || strContains lower "does not exist" then 404
  else 400

/-- Payload written by the organization deletion worker on success. -/
structure DeleteOrgSuccess where
  success : Bool
  message : String
deriving DecidableEq

/-- One observable effect of a worker handler execution: a state.set call or
an emit of an event topic. -/
inductive WorkerEffect (α : Type) where
  | stateSet (group id : String) (v : CorrelationRecord α)
  | emitEvent (topic : String)
deriving DecidableEq

/-- Embedding of the ProcessDeleteOrganization handler body (lines 35 to 107
of delete-processing.step.ts).  The delegated Better Auth call either returns
or throws an error with an optional message; the handler writes exactly one
record to (org-requests, requestId) on each path and emits the matching audit
event. -/
def processDeleteOrganization (requestId : String)
    (deleteOutcome : Except (Option String) Unit) :
    List (WorkerEffect DeleteOrgSuccess) :=
  match deleteOutcome with
  | .ok _ =>
    [.stateSet "org-requests" requestId
        (.completed ⟨true, "Organization deleted successfully"⟩),
      .emitEvent "organization.deleted"]
  | .error m =>
    let errorMessage := jsErrMessage m
    [.stateSet "org-requests" requestId
        (.failed errorMessage (some (deleteErrorStatusCode errorMessage))),
      .emitEvent "organization.delete.failed"]

/-- Terminal records written by a list of worker effects to one key, in
order. -/
def terminalWrites {α : Type} (effects : List (WorkerEffect α))
    (g i : String) : List (CorrelationRecord α) :=
  effects.filterMap fun e =>
    match e with
    | .stateSet g' i' v =>
      if g' = g ∧ i' = i ∧ v.isPending = false then some v else none
    | .emitEvent _ => none

/-- Body of an HTTP response produced by a caller handler: the completed
payload, an error object, or the undefined body produced by reading the data
field of a non-completed record. -/
inductive HttpBody (α : Type) where
  | jsonData (d : α)
  | errObj (error : String)
  | undef
deriving DecidableEq

/-- Response mapping of the bridge-mediated DeleteOrganization handler (lines
207 to 221 of delete.step.ts): a failed record yields its suggested status
code (400 when absent) with an error body, any other record yields 200 with
its data field as the body. -/
def deleteOrganizationRespond {α : Type} (result : CorrelationRecord α) :
    Int × HttpBody α :=
  match result with
  | .failed e sc => (sc.getD 400, .errObj e)
  | .completed d => (200, .jsonData d)
  | .pending => (200, .undef)

/-- A store that never holds any record, at any key or time. -/
def emptyTStore (α : Type) : TStore α := fun _ _ _ => none

/-- A store that from time zero holds the pending marker that the RAG
endpoint's own initRequest writes before the waiter runs. -/
def ragPendingStore : TStore JsonVal :=
  fun _ g i =>
    if g = "rag-workflow" ∧ i = "req-1" then some .pending else none

/-- A store that from time zero holds the completed record the organization
deletion worker writes on success. -/
def orgCompletedStore : TStore DeleteOrgSuccess :=
  fun _ g i =>
    if g = "org-requests" ∧ i = "req-1" then
      some (.completed ⟨true, "Organization deleted successfully"⟩)
    else none

/-- Unfolding fact: once the deadline has passed, the loop returns the
synthesized timeout failure without reading the store, whatever the fuel. -/
lemma waitAux_deadline {α : Type} (store : TStore α) (g i : String)
    (t : Int) (elapsed : Nat) (hg : ¬ ((elapsed : Int) < t)) :
    ∀ fuel, waitAux store g i t fuel elapsed =
      ⟨timeoutFailureRecord, [], elapsed⟩ := by
  intro fuel
  cases fuel with
  | zero => rfl
  | succ f => simp [waitAux, hg]

/-- Fuel stability: any two fuels large enough to reach the deadline give the
same outcome, so the fuel chosen by the wrapper is a faithful rendering of the
unbounded source loop. -/
lemma waitAux_fuel_stable {α : Type} (store : TStore α) (g i : String)
    (t : Int) :
    ∀ f₁ f₂ elapsed, t.toNat ≤ elapsed + POLL_INTERVAL_MS * f₁ →
      t.toNat ≤ elapsed + POLL_INTERVAL_MS * f₂ →
      waitAux store g i t f₁ elapsed = waitAux store g i t f₂ elapsed := by
  intro f₁
  induction f₁ with
  | zero =>
    intro f₂ elapsed h₁ _
    have hg : ¬ ((elapsed : Int) < t) := by
      simp only [POLL_INTERVAL_MS] at h₁; omega
    rw [waitAux_deadline store g i t elapsed hg 0,
      waitAux_deadline store g i t elapsed hg f₂]
  | succ f ih =>
    intro f₂ elapsed h₁ h₂
    cases f₂ with
    | zero =>
      have hg : ¬ ((elapsed : Int) < t) := by
        simp only [POLL_INTERVAL_MS] at h₂; omega
      rw [waitAux_deadline store g i t elapsed hg (f + 1),
        waitAux_deadline store g i t elapsed hg 0]
    | succ f' =>
      by_cases hg : (elapsed : Int) < t
      · simp only [waitAux, hg, if_true]
        cases hr : store elapsed g i with
        | none =>
          rw [ih f' (elapsed + POLL_INTERVAL_MS)
            (by simp only [POLL_INTERVAL_MS] at h₁ ⊢; omega)
            (by simp only [POLL_INTERVAL_MS] at h₂ ⊢; omega)]
        | some r =>
          by_cases hp : r.isPending
          · simp only [hp, if_true]
            rw [ih f' (elapsed + POLL_INTERVAL_MS)
              (by simp only [POLL_INTERVAL_MS] at h₁ ⊢; omega)
              (by simp only [POLL_INTERVAL_MS] at h₂ ⊢; omega)]
          · simp [hp]
      · rw [waitAux_deadline store g i t elapsed hg (f + 1),
          waitAux_deadline store g i t elapsed hg (f' + 1)]
/-- Main induction for the timeout path of the state-request waiter: when the
store never holds a terminal record at the polled key, the loop returns the
synthesized failure, no later than one poll interval past the deadline, and
performs at most one read per poll interval of remaining budget.  The bound
elapsed + (deadline - elapsed) is the maximum of the two written in a form
linear arithmetic can consume. -/
lemma waitAux_no_terminal {α : Type} (store : TStore α) (g i : String)
    (t : Int)
    (h : ∀ n r, store n g i = some r → r.isPending = true) :
    ∀ fuel elapsed,
      (waitAux store g i t fuel elapsed).result = timeoutFailureRecord ∧
      (waitAux store g i t fuel elapsed).returnedAt ≤
        elapsed + ((t.toNat + (POLL_INTERVAL_MS - 1)) - elapsed) ∧
      POLL_INTERVAL_MS * (waitAux store g i t fuel elapsed).ops.length ≤
        (t.toNat - elapsed) + (POLL_INTERVAL_MS - 1) := by
  intro fuel
  induction fuel with
  | zero =>
    intro elapsed
    refine ⟨rfl, ?_, ?_⟩ <;> simp [waitAux, POLL_INTERVAL_MS]
  | succ f ih =>
    intro elapsed
    by_cases hg : (elapsed : Int) < t
    · have helt : elapsed < t.toNat := by omega
      cases hr : store elapsed g i with
      | none =>
        have hrec := ih (elapsed + POLL_INTERVAL_MS)
        simp only [waitAux, hg, if_true, hr, addRead, List.length_cons]
        simp only [POLL_INTERVAL_MS] at hrec ⊢
        refine ⟨hrec.1, by omega, by omega⟩
      | some r =>
        have hp : r.isPending = true := h elapsed r hr
        have hrec := ih (elapsed + POLL_INTERVAL_MS)
        simp only [waitAux, hg, if_true, hr, hp, if_true, addRead,
          List.length_cons]
        simp only [POLL_INTERVAL_MS] at hrec ⊢
        refine ⟨hrec.1, by omega, by omega⟩
    · rw [waitAux_deadline store g i t elapsed hg (f + 1)]
      refine ⟨rfl, ?_, ?_⟩ <;> simp [POLL_INTERVAL_MS]

/-- The state-request waiter performs only reads, and only of the key it was
asked to watch. -/
lemma waitAux_reads_only {α : Type} (store : TStore α) (g i : String)
    (t : Int) :
    ∀ fuel elapsed,
      ((waitAux store g i t fuel elapsed).ops.all
        (fun op => op.isReadAt g i)) = true := by
  intro fuel
  induction fuel with
  | zero => intro elapsed; rfl
  | succ f ih =>
    intro elapsed
    by_cases hg : (elapsed : Int) < t
    · cases hr : store elapsed g i with
      | none =>
        simp only [waitAux, hg, if_true, hr, addRead, List.all_cons,
          Bool.and_eq_true]
        exact ⟨by simp [StoreOp.isReadAt], ih (elapsed + POLL_INTERVAL_MS)⟩
      | some r =>
        by_cases hp : r.isPending
        · simp only [waitAux, hg, if_true, hr, hp, if_true, addRead,
            List.all_cons, Bool.and_eq_true]
          exact ⟨by simp [StoreOp.isReadAt], ih (elapsed + POLL_INTERVAL_MS)⟩
        · simp [waitAux, hg, hr, hp, StoreOp.isReadAt]
    · rw [waitAux_deadline store g i t elapsed hg (f + 1)]; rfl

/-- Replaying a trace that contains only reads leaves any snapshot
unchanged. -/
lemma applyOps_of_reads {α : Type} (g i : String) :
    ∀ (ops : List (StoreOp α)) (s : Store α),
      (ops.all (fun op => op.isReadAt g i)) = true → applyOps ops s = s := by
  intro ops
  induction ops with
  | nil => intro s _; rfl
  | cons op rest ih =>
    intro s hall
    rw [List.all_cons, Bool.and_eq_true] at hall
    cases op with
    | read g' i' => exact ih s hall.2
    | write g' i' v => simp [StoreOp.isReadAt] at hall

/-- The waiter's outcome depends only on the history of the store at the
watched key: stores agreeing there at every instant give equal outcomes. -/
lemma waitAux_store_agree {α : Type} (s₁ s₂ : TStore α) (g i : String)
    (t : Int) (h : ∀ n, s₁ n g i = s₂ n g i) :
    ∀ fuel elapsed,
      waitAux s₁ g i t fuel elapsed = waitAux s₂ g i t fuel elapsed := by
  intro fuel
  induction fuel with
  | zero => intro elapsed; rfl
  | succ f ih =>
    intro elapsed
    by_cases hg : (elapsed : Int) < t
    · simp only [waitAux, hg, if_true, ← h elapsed]
      cases hr : s₁ elapsed g i with
      | none => rw [ih (elapsed + POLL_INTERVAL_MS)]
      | some r =>
        by_cases hp : r.isPending
        · simp only [hp, if_true]; rw [ih (elapsed + POLL_INTERVAL_MS)]
        · simp [hp]
    · simp [waitAux, hg]

/-- When the store never holds any record at the watched key, the RAG waiter
exhausts its budget and throws. -/
lemma ragWaitAux_none {α : Type} (store : TStore α) (g i : String)
    (t : Int) (h : ∀ n, store n g i = none) :
    ∀ fuel elapsed,
      ragWaitAux store g i t fuel elapsed = .error "Request timeout" := by
  intro fuel
  induction fuel with
  | zero => intro elapsed; rfl
  | succ f ih =>
    intro elapsed
    by_cases hg : (elapsed : Int) < t
    · simp only [ragWaitAux, hg, if_true, h elapsed]
      exact ih (elapsed + RAG_POLL_INTERVAL_MS)
    · simp [ragWaitAux, hg]

/-- find? distributes over append, trying the left list first. -/
lemma find?_append_or {β : Type} (l₁ l₂ : List β) (f : β → Bool) :
    (l₁ ++ l₂).find? f = ((l₁.find? f).orElse fun _ => l₂.find? f) := by
  induction l₁ with
  | nil => rfl
  | cons a l ih =>
    by_cases hf : f a
    · simp [List.find?, hf]
    · simp [List.find?, hf, ih]

/-- Field view of the object initRequest writes: a field of requestData wins
(object spread assigns it after status), otherwise only status 'pending' is
present. -/
lemma objGet_initRequestRecord (rd : JsonObj) (k : String) :
    objGet (initRequestRecord rd) k =
      match objGet rd k with
      | some v => some v
      | none => if k = "status" then some (JsonVal.str "pending") else none := by
  unfold objGet initRequestRecord
  rw [List.reverse_cons, find?_append_or]
  cases hfind : rd.reverse.find? (fun p => p.1 == k) with
  | some pr => simp [hfind]
  | none =>
    by_cases hk : k = "status"
    · subst hk; simp [hfind, List.find?]
    · have hne : ("status" == k) = false := by
        rw [beq_eq_false_iff_ne]
        exact Ne.symm hk
      simp [hfind, List.find?, hne, hk]

/-- C1: the claim states that every waiter implementation used by the callers
returns only terminal records or a synthesized timeout, never a Pending
record.  The RAG endpoint's local waitForRequestResult violates this: polled
against a store holding exactly the pending marker its own initRequest writes,
it returns that pending record on the very first poll. -/
theorem ragWaitForRequestResult_first_poll_returns_pending_marker :
    ragWaitForRequestResult ragPendingStore "rag-workflow" "req-1" 60000 =
      .ok .pending := by
  rfl

/-- C2 counterexample: against a store in which no record ever appears, the
RAG endpoint's local waitForRequestResult exits by throwing the exception
whose message is Request timeout (modelled as Except.error), rather than
returning the synthesized Failed record with message Request processing timed
out and status 504 that the claim asserts for every implementation. -/
theorem ragWaitForRequestResult_timeout_throws :
    ragWaitForRequestResult (emptyTStore JsonVal) "rag-workflow" "req-1"
        1000 = .error "Request timeout" := by
  rfl

/-- C2 (amended): when no terminal record is present at any poll within the
budget, the state-request waitForRequestResult returns the synthesized record
Failed with message Request processing timed out and status code 504 as a
value; the RAG endpoint's local implementation, when no record at all is
present, instead exits by throwing an exception with message Request timeout,
which its caller catches. -/
theorem awaitResult_timeout_synthesis_per_implementation {α : Type}
    (store store' : TStore α) (g i : String) (t t' : Int)
    (hnt : ∀ n r, store n g i = some r → r.isPending = true)
    (hnone : ∀ n, store' n g i = none) :
    (waitForRequestResult store g i t).result = timeoutFailureRecord ∧
    ragWaitForRequestResult store' g i t' = .error "Request timeout" :=
  ⟨(waitAux_no_terminal store g i t hnt t.toNat 0).1,
    ragWaitAux_none store' g i t' hnone t'.toNat 0⟩

/-- C2 witness: both hypotheses hold for the store that never contains any
record, and the conclusion follows from the theorem at that input. -/
theorem awaitResult_timeout_synthesis_per_implementation_witness :
    (∀ n r, emptyTStore DeleteOrgSuccess n "org-requests" "req-1" = some r →
        r.isPending = true) ∧
    (∀ n, emptyTStore DeleteOrgSuccess n "org-requests" "req-1" = none) ∧
    ((waitForRequestResult (emptyTStore DeleteOrgSuccess) "org-requests"
          "req-1" 1000).result = timeoutFailureRecord ∧
      ragWaitForRequestResult (emptyTStore DeleteOrgSuccess) "org-requests"
          "req-1" 1000 = .error "Request timeout") :=
  ⟨fun _ _ h => (nomatch h), fun _ => rfl,
    awaitResult_timeout_synthesis_per_implementation
      (emptyTStore DeleteOrgSuccess) (emptyTStore DeleteOrgSuccess)
      "org-requests" "req-1" 1000 1000
      (fun _ _ h => nomatch h) (fun _ => rfl)⟩

/-- C3: when the store never holds a terminal record at the watched key, the
state-request waitForRequestResult returns the synthesized timeout failure no
later than the budget plus one poll interval after the call began, and the
number of loop iterations (each one store read followed by one poll-interval
sleep) is at most the budget divided by the poll interval, rounded up. -/
theorem waitForRequestResult_timeout_bounds {α : Type} (store : TStore α)
    (g i : String) (t : Int)
    (hnt : ∀ n r, store n g i = some r → r.isPending = true) :
    (waitForRequestResult store g i t).result = timeoutFailureRecord ∧
    (waitForRequestResult store g i t).returnedAt ≤
      t.toNat + POLL_INTERVAL_MS ∧
    (waitForRequestResult store g i t).ops.length ≤
      (t.toNat + (POLL_INTERVAL_MS - 1)) / POLL_INTERVAL_MS := by
  have h := waitAux_no_terminal store g i t hnt t.toNat 0
  unfold waitForRequestResult
  refine ⟨h.1, ?_, ?_⟩
  · have h2 := h.2.1
    simp only [POLL_INTERVAL_MS] at h2 ⊢
    omega
  · have h3 := h.2.2
    rw [Nat.le_div_iff_mul_le (by simp [POLL_INTERVAL_MS])]
    simp only [POLL_INTERVAL_MS] at h3 ⊢
    omega

/-- C3 witness: at a 250 ms budget over the empty store the hypothesis holds
and the bounds follow from the theorem. -/
theorem waitForRequestResult_timeout_bounds_witness :
    (∀ n r, emptyTStore DeleteOrgSuccess n "org-requests" "req-9" = some r →
        r.isPending = true) ∧
    ((waitForRequestResult (emptyTStore DeleteOrgSuccess) "org-requests"
          "req-9" 250).result = timeoutFailureRecord ∧
      (waitForRequestResult (emptyTStore DeleteOrgSuccess) "org-requests"
          "req-9" 250).returnedAt ≤ (250 : Int).toNat + POLL_INTERVAL_MS ∧
      (waitForRequestResult (emptyTStore DeleteOrgSuccess) "org-requests"
          "req-9" 250).ops.length ≤
        ((250 : Int).toNat + (POLL_INTERVAL_MS - 1)) / POLL_INTERVAL_MS) :=
  ⟨fun _ _ h => (nomatch h),
    waitForRequestResult_timeout_bounds (emptyTStore DeleteOrgSuccess)
      "org-requests" "req-9" 250 (fun _ _ h => nomatch h)⟩

/-- C4: the bridge-mediated DeleteOrganization handler maps a completed record
to status 200 with its data as the body, and a failed record to the
worker-suggested status code (400 when absent) with an error body; in
particular the worker-written failure for a missing organization, with message
Organization not found and status code 404, is surfaced as status 404 with
that message as the error body. -/
theorem deleteOrganization_response_mapping {α : Type} (d : α) (e : String)
    (sc : Option Int) (rid : String) :
    deleteOrganizationRespond (CorrelationRecord.completed d) =
      (200, HttpBody.jsonData d) ∧
    deleteOrganizationRespond
        (CorrelationRecord.failed e sc : CorrelationRecord α) =
      (sc.getD 400, HttpBody.errObj e) ∧
    terminalWrites
        (processDeleteOrganization rid (.error (some "Organization not found")))
        "org-requests" rid =
      [CorrelationRecord.failed "Organization not found" (some 404)] ∧
    deleteOrganizationRespond
        (CorrelationRecord.failed "Organization not found" (some 404) :
          CorrelationRecord DeleteOrgSuccess) =
      (404, HttpBody.errObj "Organization not found") := by
  have h1 : jsErrMessage (some "Organization not found") =
      "Organization not found" := by decide
  have h2 : deleteErrorStatusCode "Organization not found" = 404 := by decide
  refine ⟨rfl, rfl, ?_, rfl⟩
  simp [terminalWrites, processDeleteOrganization, h1, h2,
    CorrelationRecord.isPending]

/-- C5: one execution of the ProcessDeleteOrganization worker performs
exactly one terminal write to the key (org-requests, requestId): the
completed success record when the delegated Better Auth deletion returns, and
the failed record carrying the computed message and status code when it
throws. -/
theorem processDeleteOrganization_exactly_one_terminal_write (rid : String)
    (outcome : Except (Option String) Unit) :
    terminalWrites (processDeleteOrganization rid outcome) "org-requests"
        rid =
      [(match outcome with
        | .ok _ =>
          CorrelationRecord.completed
            ⟨true, "Organization deleted successfully"⟩
        | .error m =>
          CorrelationRecord.failed (jsErrMessage m)
            (some (deleteErrorStatusCode (jsErrMessage m))))] := by
  cases outcome with
  | ok u =>
    simp [terminalWrites, processDeleteOrganization,
      CorrelationRecord.isPending]
  | error m =>
    simp [terminalWrites, processDeleteOrganization,
      CorrelationRecord.isPending]

/-- C6 counterexample: initRequest called with a non-empty requestData does
not write the bare Pending record: the extra field survives in the stored
object, so the written record carries a payload beyond its status. -/
theorem initRequest_payload_leaks_into_record :
    ¬ (objGet (initRequestRecord [("orgId", JsonVal.str "org_1")]) "status" =
          some (JsonVal.str "pending") ∧
        ∀ k, k ≠ "status" →
          objGet (initRequestRecord [("orgId", JsonVal.str "org_1")]) k =
            none) := by
  intro h
  have h2 := h.2 "orgId" (by decide)
  revert h2
  decide

/-- C6 (amended): initRequest unconditionally writes the object obtained by
spreading the caller-supplied requestData over the literal with status
'pending', so a field of requestData (including status itself) overrides the
pending marker; with the empty requestData, which is what every call site in
the repository passes, the written record is exactly the bare Pending record,
as is the record written by the RAG endpoint's local initRequest. -/
theorem initRequest_writes_spread_pending (rd : JsonObj) (k : String) :
    objGet (initRequestRecord rd) k =
      (match objGet rd k with
       | some v => some v
       | none =>
         if k = "status" then some (JsonVal.str "pending") else none) ∧
    initRequestRecord [] = [("status", JsonVal.str "pending")] ∧
    ragInitRequestRecord = [("status", JsonVal.str "pending")] :=
  ⟨objGet_initRequestRecord rd k, rfl, rfl⟩

/-- C7: when the record stored at the watched key is a completed record at
the waiter's first poll, waitForRequestResult returns exactly that completed
record unmodified, and the caller maps it to status 200 with its data payload
as the response body. -/
theorem awaitResult_completed_round_trip {α : Type} (store : TStore α)
    (g i : String) (d : α) (t : Int)
    (hs : store 0 g i = some (.completed d)) (ht : 0 < t) :
    (waitForRequestResult store g i t).result =
      CorrelationRecord.completed d ∧
    deleteOrganizationRespond (CorrelationRecord.completed d) =
      (200, HttpBody.jsonData d) := by
  constructor
  · unfold waitForRequestResult
    obtain ⟨k, hk⟩ : ∃ k, t.toNat = k + 1 := ⟨t.toNat - 1, by omega⟩
    rw [hk]
    have hg : ((0 : Nat) : Int) < t := by omega
    simp [waitAux, hg, hs, CorrelationRecord.isPending, ht]
  · rfl

/-- C7 witness: the concrete store holding the worker's completed success
record satisfies both hypotheses at a 10 second budget. -/
theorem awaitResult_completed_round_trip_witness :
    orgCompletedStore 0 "org-requests" "req-1" =
        some (.completed ⟨true, "Organization deleted successfully"⟩) ∧
    (0 : Int) < 10000 ∧
    ((waitForRequestResult orgCompletedStore "org-requests" "req-1"
          10000).result =
        CorrelationRecord.completed
          ⟨true, "Organization deleted successfully"⟩ ∧
      deleteOrganizationRespond
          (CorrelationRecord.completed
            (⟨true, "Organization deleted successfully"⟩ :
              DeleteOrgSuccess)) =
        (200,
          HttpBody.jsonData ⟨true, "Organization deleted successfully"⟩)) :=
  ⟨rfl, by decide,
    awaitResult_completed_round_trip orgCompletedStore "org-requests" "req-1"
      ⟨true, "Organization deleted successfully"⟩ 10000 rfl (by decide)⟩

/-- C8: the waiter reads only the entry at its own key, so a write performed
at any time by another exchange to a distinct (group, id) key leaves its
entire outcome unchanged. -/
theorem waitForRequestResult_distinct_key_noninterference {α : Type}
    (store : TStore α) (g i gp ip : String)
    (v : Option (CorrelationRecord α)) (n₀ : Nat) (t : Int)
    (hne : ¬ (gp = g ∧ ip = i)) :
    waitForRequestResult
        (fun n => if n₀ ≤ n then updateStore (store n) gp ip v else store n)
        g i t =
      waitForRequestResult store g i t := by
  unfold waitForRequestResult
  apply waitAux_store_agree
  intro n
  have hne' : ¬ (g = gp ∧ i = ip) := fun hc => hne ⟨hc.1.symm, hc.2.symm⟩
  by_cases hn : n₀ ≤ n
  · simp [hn, updateStore, hne']
  · simp [hn]

/-- C8 witness: a completed record written by another exchange under the same
group but a different id does not change the outcome at the watched key. -/
theorem waitForRequestResult_distinct_key_noninterference_witness :
    ¬ ("org-requests" = "org-requests" ∧ "req-2" = "req-1") ∧
    waitForRequestResult
        (fun n =>
          if 0 ≤ n then
            updateStore (emptyTStore DeleteOrgSuccess n) "org-requests"
              "req-2" (some (.completed ⟨true, "done"⟩))
          else emptyTStore DeleteOrgSuccess n)
        "org-requests" "req-1" 200 =
      waitForRequestResult (emptyTStore DeleteOrgSuccess) "org-requests"
        "req-1" 200 :=
  ⟨by decide,
    waitForRequestResult_distinct_key_noninterference
      (emptyTStore DeleteOrgSuccess) "org-requests" "req-1" "org-requests"
      "req-2" (some (.completed ⟨true, "done"⟩)) 0 200 (by decide)⟩

/-- C9: waitForRequestResult never writes to the correlation store: every
operation in its trace is a read of the watched key, and replaying its trace
against any store snapshot leaves that snapshot unchanged, including in the
timeout case where the synthesized failure is returned. -/
theorem waitForRequestResult_never_writes {α : Type} (store : TStore α)
    (g i : String) (t : Int) :
    ((waitForRequestResult store g i t).ops.all
        (fun op => op.isReadAt g i)) = true ∧
    ∀ s : Store α, applyOps (waitForRequestResult store g i t).ops s = s := by
  have h := waitAux_reads_only store g i t t.toNat 0
  exact ⟨h, fun s => applyOps_of_reads g i _ s h⟩

/-- C10: with a budget of zero or less the deadline check fails before the
first poll, so waitForRequestResult performs no store read at all and
immediately returns the synthesized timeout failure at elapsed time zero. -/
theorem waitForRequestResult_nonpositive_budget {α : Type} (store : TStore α)
    (g i : String) (t : Int) (ht : t ≤ 0) :
    waitForRequestResult store g i t = ⟨timeoutFailureRecord, [], 0⟩ := by
  unfold waitForRequestResult
  have hg : ¬ (((0 : Nat) : Int) < t) := by omega
  exact waitAux_deadline store g i t 0 hg t.toNat

/-- C10 witness: even against a store already holding a completed record, a
negative budget yields the synthesized failure with an empty trace. -/
theorem waitForRequestResult_nonpositive_budget_witness :
    (-5 : Int) ≤ 0 ∧
    waitForRequestResult orgCompletedStore "org-requests" "req-1" (-5) =
      ⟨timeoutFailureRecord, [], 0⟩ :=
  ⟨by decide,
    waitForRequestResult_nonpositive_budget orgCompletedStore "org-requests"
      "req-1" (-5) (by decide)⟩
